import Mathlib

/-!
Verification of the adobe-controller relay (`adobe-mcp-rs`).

This file shallowly embeds the parts of the repository that the claims are
about:

* `adobe-common/src/socket_io.rs` — the Socket.IO framing codec
  (`encode_event` / `decode_event`).  The codec delegates JSON
  serialization/parsing to the external `serde_json` crate; that crate's
  behavior on the values in play is modelled here by `serJson` (compact
  serialization with serde's string escapes) and the fuel-indexed parser
  `parseVal` (no inter-token whitespace is modelled: none of the inputs the
  claims touch contains any).  JSON numbers are modelled as integers; the
  claims under study never hinge on floating-point payloads.

* `adobe-proxy/src/main.rs` — the session registry (`AppState`) and the
  event router (`handle_event`).  The two `DashMap`s are modelled as
  association lists with unique keys; per-client broadcast channels are
  modelled by returning the list of (recipient, event, payload) deliveries
  an operation performs.  Filesystem/process effects of the auto-launch
  path are abstracted by explicit boolean/state parameters.

Strings are embedded as `List Char` (`Str`), so that the codec proofs can
proceed by structural induction on characters.
-/

abbrev Str := List Char

/-! ### Association lists (model of `DashMap`)

`DashMap` is an unordered map with unique keys; iteration order is
unspecified.  We model it as an association list normalized so that
`ainsert` places the updated binding in front and removes any stale one. -/

def alookup {α : Type} (k : Str) : List (Str × α) → Option α
  | [] => none
  | (k', v) :: rest => if k = k' then some v else alookup k rest

def aremove {α : Type} (k : Str) (l : List (Str × α)) : List (Str × α) :=
  l.filter (fun kv => kv.1 ≠ k)

def ainsert {α : Type} (k : Str) (v : α) (l : List (Str × α)) : List (Str × α) :=
  (k, v) :: aremove k l

/-- `get_mut`-style update: change the value at `k` if the key is present. -/
def amodify {α : Type} (k : Str) (f : α → α) (l : List (Str × α)) : List (Str × α) :=
  match alookup k l with
  | some v => ainsert k (f v) l
  | none => l

/-- `entry(k).and_modify(f).or_insert(d)`. -/
def aupsert {α : Type} (k : Str) (f : α → α) (d : α) (l : List (Str × α)) : List (Str × α) :=
  match alookup k l with
  | some v => ainsert k (f v) l
  | none => ainsert k d l

/-! ### JSON values (model of `serde_json::Value`, numbers as integers) -/

inductive Json where
  | null
  | bool (b : Bool)
  | num (n : Int)
  | str (s : Str)
  | arr (elems : List Json)
  | obj (fields : List (Str × Json))

/-! ### Serialization (model of `serde_json`'s compact output) -/

/-- Lower-case hexadecimal digit, as `serde_json` emits in `\u00XX`. -/
def hexDigit (n : Nat) : Char :=
  if n < 10 then Char.ofNat (48 + n) else Char.ofNat (87 + n)

/-- serde_json's escaping of one character inside a string literal:
`"` and `\` get a backslash; the five named control escapes are used when
available; remaining control characters become `\u00XX`; everything else is
emitted verbatim. -/
def escapeChar (c : Char) : Str :=
  if c = '"' then ['\\', '"']
  else if c = '\\' then ['\\', '\\']
  else if c = '\x08' then ['\\', 'b']
  else if c = '\x09' then ['\\', 't']
  else if c = '\x0a' then ['\\', 'n']
  else if c = '\x0c' then ['\\', 'f']
  else if c = '\x0d' then ['\\', 'r']
  else if c.toNat < 32 then ['\\', 'u', '0', '0', hexDigit (c.toNat / 16), hexDigit (c.toNat % 16)]
  else [c]

def escapeStr (s : Str) : Str :=
  s.foldr (fun c acc => escapeChar c ++ acc) []

/-- Decimal digits of `n`, most significant first.  The fuel argument is only
there to make the recursion structural (so the kernel can evaluate it);
`fuel ≥ n` always suffices. -/
def natDigitsFuel : Nat → Nat → Str
  | 0, _ => []
  | f + 1, n =>
    if n < 10 then [Char.ofNat (48 + n)]
    else natDigitsFuel f (n / 10) ++ [Char.ofNat (48 + n % 10)]

def serNat (n : Nat) : Str := natDigitsFuel (n + 1) n

def serInt (i : Int) : Str :=
  if i < 0 then '-' :: serNat i.natAbs else serNat i.natAbs

mutual
def serJson : Json → Str
  | .null => 'n' :: ['u', 'l', 'l']
  | .bool true => 't' :: ['r', 'u', 'e']
  | .bool false => 'f' :: ['a', 'l', 's', 'e']
  | .num i => serInt i
  | .str s => '"' :: escapeStr s ++ ['"']
  | .arr es => '[' :: serElems es ++ [']']
  | .obj fs => '\x7b' :: serFields fs ++ ['\x7d']

def serElems : List Json → Str
  | [] => []
  | [e] => serJson e
  | e :: e2 :: es => serJson e ++ ',' :: serElems (e2 :: es)

def serFields : List (Str × Json) → Str
  | [] => []
  | [(k, v)] => '"' :: escapeStr k ++ '"' :: ':' :: serJson v
  | (k, v) :: f2 :: fs =>
    '"' :: escapeStr k ++ '"' :: ':' :: serJson v ++ ',' :: serFields (f2 :: fs)
end

/-! ### Parsing (model of `serde_json::from_str` on whitespace-free input) -/

def isDigitCh (c : Char) : Bool := 48 ≤ c.toNat && c.toNat ≤ 57

def digitsToNat (ds : Str) : Nat :=
  ds.foldl (fun acc c => acc * 10 + (c.toNat - 48)) 0

/-- Greedily take the leading run of decimal digits. -/
def takeDigits : Str → Str × Str
  | [] => ([], [])
  | c :: cs =>
    if isDigitCh c then
      let (ds, r) := takeDigits cs
      (c :: ds, r)
    else ([], c :: cs)

/-- Parse a nonempty digit run into a natural number. -/
def parseNatTok (cs : Str) : Option (Nat × Str) :=
  match takeDigits cs with
  | ([], _) => none
  | (ds, r) => some (digitsToNat ds, r)

def hexVal (c : Char) : Option Nat :=
  if 48 ≤ c.toNat && c.toNat ≤ 57 then some (c.toNat - 48)
  else if 97 ≤ c.toNat && c.toNat ≤ 102 then some (c.toNat - 87)
  else if 65 ≤ c.toNat && c.toNat ≤ 70 then some (c.toNat - 55)
  else none

/-- Body of a string literal, after the opening quote.  serde_json rejects
unescaped control characters and lone surrogates (surrogate pairs are not
modelled; no input under study contains them). -/
def parseStrBody : Str → Option (Str × Str)
  | [] => none
  | '"' :: rest => some ([], rest)
  | '\\' :: e :: rest =>
    match e with
    | '"' => (parseStrBody rest).map (fun p => ('"' :: p.1, p.2))
    | '\\' => (parseStrBody rest).map (fun p => ('\\' :: p.1, p.2))
    | '/' => (parseStrBody rest).map (fun p => ('/' :: p.1, p.2))
    | 'b' => (parseStrBody rest).map (fun p => ('\x08' :: p.1, p.2))
    | 't' => (parseStrBody rest).map (fun p => ('\x09' :: p.1, p.2))
    | 'n' => (parseStrBody rest).map (fun p => ('\x0a' :: p.1, p.2))
    | 'f' => (parseStrBody rest).map (fun p => ('\x0c' :: p.1, p.2))
    | 'r' => (parseStrBody rest).map (fun p => ('\x0d' :: p.1, p.2))
    | 'u' =>
      match rest with
      | h1 :: h2 :: h3 :: h4 :: rest2 =>
        match hexVal h1, hexVal h2, hexVal h3, hexVal h4 with
        | some a, some b, some c, some d =>
          let code := ((a * 16 + b) * 16 + c) * 16 + d
          if 55296 ≤ code && code ≤ 57343 then none
          else (parseStrBody rest2).map (fun p => (Char.ofNat code :: p.1, p.2))
        | _, _, _, _ => none
      | _ => none
    | _ => none
  | c :: rest =>
    if c.toNat < 32 then none
    else (parseStrBody rest).map (fun p => (c :: p.1, p.2))

/-- Non-composite values: keywords and numbers. -/
def parseAtom : Str → Option (Json × Str)
  | 'n' :: 'u' :: 'l' :: 'l' :: rest => some (.null, rest)
  | 't' :: 'r' :: 'u' :: 'e' :: rest => some (.bool true, rest)
  | 'f' :: 'a' :: 'l' :: 's' :: 'e' :: rest => some (.bool false, rest)
  | '-' :: rest => (parseNatTok rest).map (fun p => (.num (-(p.1 : Int)), p.2))
  | cs => (parseNatTok cs).map (fun p => (.num (p.1 : Int), p.2))

mutual
/-- Fuel-indexed JSON value parser; structural on the fuel so the kernel can
evaluate it.  Fuel strictly exceeding the input length always suffices. -/
def parseVal : Nat → Str → Option (Json × Str)
  | 0, _ => none
  | fuel + 1, cs =>
    match cs with
    | '[' :: rest =>
      match rest with
      | ']' :: r => some (.arr [], r)
      | _ => (parseElems fuel rest).map (fun p => (.arr p.1, p.2))
    | '\x7b' :: rest =>
      match rest with
      | '\x7d' :: r => some (.obj [], r)
      | _ => (parseFields fuel rest).map (fun p => (.obj p.1, p.2))
    | '"' :: rest => (parseStrBody rest).map (fun p => (.str p.1, p.2))
    | cs => parseAtom cs

/-- One or more comma-separated array elements, up to the closing bracket. -/
def parseElems : Nat → Str → Option (List Json × Str)
  | 0, _ => none
  | fuel + 1, cs =>
    match parseVal fuel cs with
    | none => none
    | some (v, r) =>
      match r with
      | ',' :: r2 => (parseElems fuel r2).map (fun p => (v :: p.1, p.2))
      | ']' :: r2 => some ([v], r2)
      | _ => none

/-- One or more `"key":value` members, up to the closing brace. -/
def parseFields : Nat → Str → Option (List (Str × Json) × Str)
  | 0, _ => none
  | fuel + 1, cs =>
    match cs with
    | '"' :: r =>
      match parseStrBody r with
      | none => none
      | some (key, r1) =>
        match r1 with
        | ':' :: r2 =>
          match parseVal fuel r2 with
          | none => none
          | some (v, r3) =>
            match r3 with
            | ',' :: r4 => (parseFields fuel r4).map (fun p => ((key, v) :: p.1, p.2))
            | '\x7d' :: r4 => some ([(key, v)], r4)
            | _ => none
        | _ => none
    | _ => none
end

/-- `serde_json::from_str::<Value>`: a single value consuming the whole
input (serde permits trailing whitespace). -/
def isWsCh (c : Char) : Bool := c = ' ' || c = '\x09' || c = '\x0a' || c = '\x0d'

def jsonFromStr (cs : Str) : Option Json :=
  match parseVal (cs.length + 1) cs with
  | some (v, rest) => if rest.all isWsCh then some v else none
  | none => none

/-! ### The framing codec (`adobe-common/src/socket_io.rs`) -/

/-- `message.starts_with(SOCKET_IO_EVENT_PREFIX)` with the event marker `"42"`. -/
def startsWith42 : Str → Bool
  | '4' :: '2' :: _ => true
  | _ => false

/-- `message.find('[')` followed by slicing `&message[json_start..]`: the
suffix of the message from the first `[` (inclusive), if any. -/
def fromFirstBracket : Str → Option Str
  | [] => none
  | c :: cs => if c = '[' then some (c :: cs) else fromFirstBracket cs

/-- `encode_event` (socket_io.rs line 12): the `"42"` marker followed by the
serialized two-element array `[event, data]`. -/
def encode_event (event : Str) (data : Json) : Str :=
  '4' :: '2' :: serJson (.arr [.str event, data])

/-- `decode_event` (socket_io.rs line 16): reject messages not starting with
`"42"`; parse the suffix from the first `[` as JSON; accept only an array of
at least two elements whose first element is a string. -/
def decode_event (message : Str) : Option (Str × Json) :=
  if startsWith42 message then
    match fromFirstBracket message with
    | some jsonStr =>
      match jsonFromStr jsonStr with
      | some (Json.arr (e0 :: e1 :: _)) =>
        match e0 with
        | .str ev => some (ev, e1)
        | _ => none
      | _ => none
    | none => none
  else none

example : decode_event "42[\"ping_test\",null]".toList = some ("ping_test".toList, .null) := rfl

example :
    decode_event "42/uxp,[\"command_packet\",\x7b\"a\":1\x7d]".toList
      = some ("command_packet".toList, .obj [("a".toList, .num 1)]) := rfl

example : decode_event "40".toList = none := rfl
example : decode_event "2".toList = none := rfl
example : decode_event "42[\"x\"]".toList = none := rfl
example : decode_event "42[1,2]".toList = none := rfl
example : decode_event "42[\"ev\",1,2]".toList = some ("ev".toList, .num 1) := rfl

/-! ### Codec round trip: digit lemmas -/

theorem digitChar_spec (k : Nat) (h : k < 10) :
    (Char.ofNat (48 + k)).toNat = 48 + k ∧ isDigitCh (Char.ofNat (48 + k)) = true := by
  interval_cases k <;> exact ⟨by decide, by decide⟩

theorem isDigitCh_ne (c : Char) (h : isDigitCh c = true) :
    c ≠ ']' ∧ c ≠ '\x7d' ∧ c ≠ ',' ∧ c ≠ '[' ∧ c ≠ '\x7b' ∧ c ≠ '"' ∧ c ≠ '-' ∧
      c ≠ 'n' ∧ c ≠ 't' ∧ c ≠ 'f' ∧ c ≠ ':' := by
  refine ⟨?_, ?_, ?_, ?_, ?_, ?_, ?_, ?_, ?_, ?_, ?_⟩ <;>
    (intro hc; subst hc; exact absurd h (by decide))

theorem digitsToNat_append_one (ds : Str) (c : Char) :
    digitsToNat (ds ++ [c]) = 10 * digitsToNat ds + (c.toNat - 48) := by
  simp [digitsToNat, List.foldl_append]
  omega

theorem natDigitsFuel_spec (n : Nat) : ∀ f, n < f →
    digitsToNat (natDigitsFuel f n) = n ∧ natDigitsFuel f n ≠ [] ∧
      ∀ c ∈ natDigitsFuel f n, isDigitCh c = true := by
  induction n using Nat.strongRecOn with
  | _ n ih =>
    intro f hf
    match f, hf with
    | f + 1, _ =>
      by_cases h10 : n < 10
      · refine ⟨?_, by simp [natDigitsFuel, h10], ?_⟩
        · simp [natDigitsFuel, h10, digitsToNat, (digitChar_spec n h10).1]
        · intro c hc
          simp [natDigitsFuel, h10] at hc
          subst hc
          exact (digitChar_spec n h10).2
      · have hdiv : n / 10 < n := Nat.div_lt_self (by omega) (by omega)
        have hrec := ih (n / 10) hdiv f (by omega)
        refine ⟨?_, ?_, ?_⟩
        · rw [natDigitsFuel, if_neg h10, digitsToNat_append_one, hrec.1,
            (digitChar_spec (n % 10) (by omega)).1]
          omega
        · simp [natDigitsFuel, h10]
        · intro c hc
          rw [natDigitsFuel, if_neg h10] at hc
          rcases List.mem_append.mp hc with h | h
          · exact hrec.2.2 c h
          · rw [List.mem_singleton] at h
            subst h
            exact (digitChar_spec (n % 10) (by omega)).2

theorem serNat_toNat (n : Nat) : digitsToNat (serNat n) = n :=
  (natDigitsFuel_spec n (n + 1) (by omega)).1

theorem serNat_ne_nil (n : Nat) : serNat n ≠ [] :=
  (natDigitsFuel_spec n (n + 1) (by omega)).2.1

theorem serNat_digits (n : Nat) : ∀ c ∈ serNat n, isDigitCh c = true :=
  (natDigitsFuel_spec n (n + 1) (by omega)).2.2

theorem serNat_cons (n : Nat) :
    ∃ c t, serNat n = c :: t ∧ isDigitCh c = true := by
  match h : serNat n with
  | [] => exact absurd h (serNat_ne_nil n)
  | c :: t => exact ⟨c, t, rfl, serNat_digits n c (h ▸ List.mem_cons_self ..)⟩

/-- Heads that cannot extend a digit run: the empty remainder or any
non-digit head.  All delimiters a serialized value is followed by qualify. -/
def numStop : Str → Bool
  | [] => true
  | c :: _ => !isDigitCh c

theorem takeDigits_stop (cs : Str) (h : numStop cs = true) :
    takeDigits cs = ([], cs) := by
  match cs with
  | [] => rfl
  | c :: t =>
    simp only [numStop, Bool.not_eq_true'] at h
    simp [takeDigits, h]

theorem takeDigits_run (ds : Str) (hds : ∀ c ∈ ds, isDigitCh c = true)
    (rest : Str) (hrest : numStop rest = true) :
    takeDigits (ds ++ rest) = (ds, rest) := by
  induction ds with
  | nil => simpa using takeDigits_stop rest hrest
  | cons c t ih =>
    have hcd := hds c (List.mem_cons_self c t)
    have hrec := ih (fun x hx => hds x (List.mem_cons_of_mem c hx))
    simp [takeDigits, hcd, hrec]

theorem parseNatTok_serNat (n : Nat) (rest : Str) (hrest : numStop rest = true) :
    parseNatTok (serNat n ++ rest) = some (n, rest) := by
  rw [parseNatTok, takeDigits_run (serNat n) (serNat_digits n) rest hrest]
  obtain ⟨c, t, hc, -⟩ := serNat_cons n
  have hval : digitsToNat (c :: t) = n := by rw [← hc, serNat_toNat]
  rw [hc]
  simp [hval]

/-! ### Codec round trip: string lemmas -/

theorem hexVal_hexDigit (k : Nat) (h : k < 16) : hexVal (hexDigit k) = some k := by
  interval_cases k <;> decide

theorem parseStrBody_escapeChar (c : Char) (rest : Str) :
    parseStrBody (escapeChar c ++ rest)
      = (parseStrBody rest).map (fun p => (c :: p.1, p.2)) := by
  simp only [escapeChar]
  split_ifs with h1 h2 h3 h4 h5 h6 h7 h8
  · subst h1; rfl
  · subst h2; rfl
  · subst h3; rfl
  · subst h4; rfl
  · subst h5; rfl
  · subst h6; rfl
  · subst h7; rfl
  · -- `\u00XX` escape for the remaining control characters
    have hhi : hexVal (hexDigit (c.toNat / 16)) = some (c.toNat / 16) :=
      hexVal_hexDigit _ (by omega)
    have hlo : hexVal (hexDigit (c.toNat % 16)) = some (c.toNat % 16) :=
      hexVal_hexDigit _ (by omega)
    have h0 : hexVal '0' = some 0 := rfl
    simp only [List.cons_append, List.nil_append, parseStrBody, h0, hhi, hlo]
    have hcode : ((0 * 16 + 0) * 16 + c.toNat / 16) * 16 + c.toNat % 16 = c.toNat := by
      omega
    rw [hcode]
    have hrange : (55296 ≤ c.toNat && c.toNat ≤ 57343) = false := by
      have hlt : c.toNat < 55296 := by omega
      simp [hlt]
    rw [hrange]
    simp [Char.ofNat_toNat]
  · -- ordinary character, emitted verbatim
    simp only [List.cons_append, List.nil_append]
    rw [parseStrBody.eq_def]
    split
    · simp_all
    · simp_all
    · simp_all
    · rename_i cs c' hno1 hno2 h'
      injection h' with hc hrest
      subst hc
      subst hrest
      rw [if_neg (by omega)]

theorem parseStrBody_escapeStr (s : Str) (rest : Str) :
    parseStrBody (escapeStr s ++ '"' :: rest) = some (s, rest) := by
  induction s with
  | nil => rfl
  | cons c s ih =>
    have hstep : escapeStr (c :: s) = escapeChar c ++ escapeStr s := by
      simp [escapeStr]
    rw [hstep, List.append_assoc, parseStrBody_escapeChar, ih]
    rfl

/-! ### Codec round trip: atoms and branch-selection lemmas -/

theorem parseAtom_digitHead (c : Char) (t : Str) (hc : isDigitCh c = true) :
    parseAtom (c :: t) = (parseNatTok (c :: t)).map (fun p => (.num (p.1 : Int), p.2)) := by
  obtain ⟨-, -, -, -, -, -, hm, hn, ht, hf, -⟩ := isDigitCh_ne c hc
  rw [parseAtom.eq_def]
  split
  · rename_i h'; injection h' with h1 _; exact absurd h1 hn
  · rename_i h'; injection h' with h1 _; exact absurd h1 ht
  · rename_i h'; injection h' with h1 _; exact absurd h1 hf
  · rename_i h'; injection h' with h1 _; exact absurd h1 hm
  · rfl

theorem parseAtom_serInt (i : Int) (rest : Str) (hrest : numStop rest = true) :
    parseAtom (serInt i ++ rest) = some (.num i, rest) := by
  by_cases hi : i < 0
  · have harg : serInt i ++ rest = '-' :: (serNat i.natAbs ++ rest) := by
      simp [serInt, hi]
    rw [harg]
    have hstep : parseAtom ('-' :: (serNat i.natAbs ++ rest))
        = (parseNatTok (serNat i.natAbs ++ rest)).map
            (fun p => (.num (-(p.1 : Int)), p.2)) := rfl
    rw [hstep, parseNatTok_serNat _ _ hrest]
    simp only [Option.map_some']
    have : -(i.natAbs : Int) = i := by omega
    rw [this]
  · obtain ⟨c, t, hct, hc⟩ := serNat_cons i.natAbs
    have harg : serInt i ++ rest = c :: (t ++ rest) := by
      simp [serInt, hi, hct]
    rw [harg, parseAtom_digitHead c _ hc, ← List.cons_append, ← hct,
      parseNatTok_serNat _ _ hrest]
    simp only [Option.map_some']
    have : (i.natAbs : Int) = i := by omega
    rw [this]

theorem serJson_cons (v : Json) :
    ∃ c t, serJson v = c :: t ∧ c ≠ ']' ∧ c ≠ '\x7d' := by
  cases v with
  | null => exact ⟨'n', ['u', 'l', 'l'], by simp [serJson], by decide, by decide⟩
  | bool b =>
    cases b with
    | true => exact ⟨'t', ['r', 'u', 'e'], by simp [serJson], by decide, by decide⟩
    | false => exact ⟨'f', ['a', 'l', 's', 'e'], by simp [serJson], by decide, by decide⟩
  | str s => exact ⟨'"', escapeStr s ++ ['"'], by simp [serJson], by decide, by decide⟩
  | arr es => exact ⟨'[', serElems es ++ [']'], by simp [serJson], by decide, by decide⟩
  | obj fs => exact ⟨'\x7b', serFields fs ++ ['\x7d'], by simp [serJson], by decide, by decide⟩
  | num i =>
    by_cases hi : i < 0
    · exact ⟨'-', serNat i.natAbs, by simp [serJson, serInt, hi], by decide, by decide⟩
    · obtain ⟨c, t, hct, hc⟩ := serNat_cons i.natAbs
      obtain ⟨hne1, hne2, -⟩ := isDigitCh_ne c hc
      exact ⟨c, t, by simp [serJson, serInt, hi, hct], hne1, hne2⟩

theorem serElems_cons (e : Json) (es : List Json) :
    ∃ c t, serElems (e :: es) = c :: t ∧ c ≠ ']' ∧ c ≠ '\x7d' := by
  obtain ⟨c, t, hct, h1, h2⟩ := serJson_cons e
  cases es with
  | nil => exact ⟨c, t, by simp [serElems, hct], h1, h2⟩
  | cons e2 es' =>
    exact ⟨c, t ++ ',' :: serElems (e2 :: es'), by simp [serElems, hct], h1, h2⟩

theorem parseVal_arrBranch (f : Nat) (c : Char) (t : Str) (hc : c ≠ ']') :
    parseVal (f + 1) ('[' :: c :: t)
      = (parseElems f (c :: t)).map (fun p => (.arr p.1, p.2)) := by
  show (match c :: t with
        | ']' :: r => some (Json.arr [], r)
        | _ => (parseElems f (c :: t)).map
            (fun p : List Json × Str => (Json.arr p.1, p.2))) = _
  split
  · rename_i h'; injection h' with h1 _; exact absurd h1 hc
  · rfl

theorem parseVal_objBranch (f : Nat) (c : Char) (t : Str) (hc : c ≠ '\x7d') :
    parseVal (f + 1) ('\x7b' :: c :: t)
      = (parseFields f (c :: t)).map (fun p => (.obj p.1, p.2)) := by
  show (match c :: t with
        | '\x7d' :: r => some (Json.obj [], r)
        | _ => (parseFields f (c :: t)).map
            (fun p : List (Str × Json) × Str => (Json.obj p.1, p.2))) = _
  split
  · rename_i h'; injection h' with h1 _; exact absurd h1 hc
  · rfl

theorem parseVal_strBranch (f : Nat) (cs : Str) :
    parseVal (f + 1) ('"' :: cs)
      = (parseStrBody cs).map (fun p => (Json.str p.1, p.2)) := rfl

theorem parseVal_atomBranch (f : Nat) (c : Char) (t : Str)
    (h1 : c ≠ '[') (h2 : c ≠ '\x7b') (h3 : c ≠ '"') :
    parseVal (f + 1) (c :: t) = parseAtom (c :: t) := by
  rw [parseVal.eq_def]
  split
  · rename_i h'; exact absurd h' (by omega)
  · rename_i fuel h'
    injection h' with hfu
    subst hfu
    split
    · rename_i r heq; injection heq with hch _; exact absurd hch h1
    · rename_i r heq; injection heq with hch _; exact absurd hch h2
    · rename_i r heq; injection heq with hch _; exact absurd hch h3
    · rfl

theorem serInt_cons (i : Int) :
    ∃ c t, serInt i = c :: t ∧ c ≠ '[' ∧ c ≠ '\x7b' ∧ c ≠ '"' := by
  by_cases hi : i < 0
  · exact ⟨'-', serNat i.natAbs, by simp [serInt, hi], by decide, by decide, by decide⟩
  · obtain ⟨c, t, hct, hc⟩ := serNat_cons i.natAbs
    obtain ⟨-, -, -, h4, h5, h6, -⟩ := isDigitCh_ne c hc
    exact ⟨c, t, by simp [serInt, hi, hct], h4, h5, h6⟩

theorem serFields_cons (k : Str) (v : Json) (fs : List (Str × Json)) :
    ∃ t, serFields ((k, v) :: fs) = '"' :: t := by
  cases fs with
  | nil => exact ⟨escapeStr k ++ '"' :: ':' :: serJson v, by simp [serFields]⟩
  | cons f2 fs' =>
    match f2 with
    | (k2, v2) =>
      exact ⟨escapeStr k ++ '"' :: ':' :: (serJson v ++ ',' :: serFields ((k2, v2) :: fs')),
        by simp [serFields]⟩

/-! ### Codec round trip: the main mutual induction -/

mutual
theorem rtVal : ∀ (v : Json) (f : Nat) (rest : Str),
    (serJson v).length < f → numStop rest = true →
    parseVal f (serJson v ++ rest) = some (v, rest)
  | .null, f, rest, hf, _ => by
    cases f with
    | zero => exact absurd hf (Nat.not_lt_zero _)
    | succ f =>
      rw [show serJson .null = ['n', 'u', 'l', 'l'] from by simp [serJson]]
      rfl
  | .bool true, f, rest, hf, _ => by
    cases f with
    | zero => exact absurd hf (Nat.not_lt_zero _)
    | succ f =>
      rw [show serJson (.bool true) = ['t', 'r', 'u', 'e'] from by simp [serJson]]
      rfl
  | .bool false, f, rest, hf, _ => by
    cases f with
    | zero => exact absurd hf (Nat.not_lt_zero _)
    | succ f =>
      rw [show serJson (.bool false) = ['f', 'a', 'l', 's', 'e'] from by simp [serJson]]
      rfl
  | .num i, f, rest, hf, hrest => by
    cases f with
    | zero => exact absurd hf (Nat.not_lt_zero _)
    | succ f =>
      obtain ⟨c, t, hct, h1, h2, h3⟩ := serInt_cons i
      rw [show serJson (.num i) = serInt i from by simp [serJson]]
      rw [show serInt i ++ rest = c :: (t ++ rest) from by rw [hct]; simp]
      rw [parseVal_atomBranch f c _ h1 h2 h3]
      rw [show c :: (t ++ rest) = serInt i ++ rest from by rw [hct]; simp]
      exact parseAtom_serInt i rest hrest
  | .str s, f, rest, hf, _ => by
    cases f with
    | zero => exact absurd hf (Nat.not_lt_zero _)
    | succ f =>
      rw [show serJson (.str s) ++ rest = '"' :: (escapeStr s ++ '"' :: rest) from by
        simp [serJson]]
      rw [parseVal_strBranch, parseStrBody_escapeStr]
      rfl
  | .arr [], f, rest, hf, _ => by
    cases f with
    | zero => exact absurd hf (Nat.not_lt_zero _)
    | succ f =>
      rw [show serJson (.arr []) ++ rest = '[' :: ']' :: rest from by
        simp [serJson, serElems]]
      rfl
  | .arr (e :: es), f, rest, hf, _ => by
    cases f with
    | zero => exact absurd hf (Nat.not_lt_zero _)
    | succ f =>
      obtain ⟨c, t, hct, hc, -⟩ := serElems_cons e es
      have hlen : (serElems (e :: es)).length + 1 < f := by
        simp only [serJson, List.length_cons, List.length_append,
          List.length_singleton] at hf
        omega
      rw [show serJson (.arr (e :: es)) ++ rest
          = '[' :: (c :: (t ++ ']' :: rest)) from by simp [serJson, hct]]
      rw [parseVal_arrBranch f c _ hc]
      rw [show c :: (t ++ ']' :: rest) = serElems (e :: es) ++ ']' :: rest from by
        rw [hct]; simp]
      rw [rtElems e es f rest hlen]
      rfl
  | .obj [], f, rest, hf, _ => by
    cases f with
    | zero => exact absurd hf (Nat.not_lt_zero _)
    | succ f =>
      rw [show serJson (.obj []) ++ rest = '\x7b' :: '\x7d' :: rest from by
        simp [serJson, serFields]]
      rfl
  | .obj ((k, v) :: fs), f, rest, hf, _ => by
    cases f with
    | zero => exact absurd hf (Nat.not_lt_zero _)
    | succ f =>
      obtain ⟨t, ht⟩ := serFields_cons k v fs
      have hlen : (serFields ((k, v) :: fs)).length + 1 < f := by
        simp only [serJson, List.length_cons, List.length_append,
          List.length_singleton] at hf
        omega
      rw [show serJson (.obj ((k, v) :: fs)) ++ rest
          = '\x7b' :: ('"' :: (t ++ '\x7d' :: rest)) from by simp [serJson, ht]]
      rw [parseVal_objBranch f '"' _ (by decide)]
      rw [show '"' :: (t ++ '\x7d' :: rest) = serFields ((k, v) :: fs) ++ '\x7d' :: rest from by
        rw [ht]; simp]
      rw [rtFields k v fs f rest hlen]
      rfl
termination_by v _ _ _ _ => sizeOf v

theorem rtElems : ∀ (e : Json) (es : List Json) (f : Nat) (rest : Str),
    (serElems (e :: es)).length + 1 < f →
    parseElems f (serElems (e :: es) ++ ']' :: rest) = some (e :: es, rest)
  | e, [], f, rest, hf => by
    cases f with
    | zero => exact absurd hf (Nat.not_lt_zero _)
    | succ f =>
      have hflen : (serJson e).length < f := by
        simp only [serElems, List.length_cons] at hf ⊢
        omega
      have hv := rtVal e f (']' :: rest) hflen rfl
      simp only [parseElems]
      rw [show serElems [e] = serJson e from by simp [serElems], hv]
      rfl
  | e, x :: xs, f, rest, hf => by
    cases f with
    | zero => exact absurd hf (Nat.not_lt_zero _)
    | succ f =>
      have hflen : (serJson e).length < f := by
        simp only [serElems, List.length_append, List.length_cons] at hf
        omega
      have hxlen : (serElems (x :: xs)).length + 1 < f := by
        simp only [serElems, List.length_append, List.length_cons] at hf
        omega
      have hv := rtVal e f (',' :: (serElems (x :: xs) ++ ']' :: rest)) hflen rfl
      have hrec := rtElems x xs f rest hxlen
      simp only [parseElems]
      rw [show serElems (e :: x :: xs) ++ ']' :: rest
          = serJson e ++ ',' :: (serElems (x :: xs) ++ ']' :: rest) from by
        simp [serElems]]
      rw [hv]
      simp [hrec]
termination_by e es _ _ _ => sizeOf e + sizeOf es

theorem rtFields : ∀ (k : Str) (v : Json) (fs : List (Str × Json)) (f : Nat) (rest : Str),
    (serFields ((k, v) :: fs)).length + 1 < f →
    parseFields f (serFields ((k, v) :: fs) ++ '\x7d' :: rest) = some ((k, v) :: fs, rest)
  | k, v, [], f, rest, hf => by
    cases f with
    | zero => exact absurd hf (Nat.not_lt_zero _)
    | succ f =>
      have hflen : (serJson v).length < f := by
        simp only [serFields, List.length_cons, List.length_append] at hf
        omega
      have hv := rtVal v f ('\x7d' :: rest) hflen rfl
      rw [show serFields [(k, v)] ++ '\x7d' :: rest
          = '"' :: (escapeStr k ++ '"' :: (':' :: (serJson v ++ '\x7d' :: rest))) from by
        simp [serFields]]
      simp only [parseFields, parseStrBody_escapeStr, hv]
  | k, v, (k2, v2) :: fs, f, rest, hf => by
    cases f with
    | zero => exact absurd hf (Nat.not_lt_zero _)
    | succ f =>
      have hflen : (serJson v).length < f := by
        simp only [serFields, List.length_cons, List.length_append] at hf
        omega
      have hxlen : (serFields ((k2, v2) :: fs)).length + 1 < f := by
        simp only [serFields, List.length_cons, List.length_append] at hf
        omega
      have hv := rtVal v f (',' :: (serFields ((k2, v2) :: fs) ++ '\x7d' :: rest)) hflen rfl
      have hrec := rtFields k2 v2 fs f rest hxlen
      rw [show serFields ((k, v) :: (k2, v2) :: fs) ++ '\x7d' :: rest
          = '"' :: (escapeStr k ++ '"' :: (':' :: (serJson v
              ++ ',' :: (serFields ((k2, v2) :: fs) ++ '\x7d' :: rest)))) from by
        simp [serFields]]
      simp only [parseFields, parseStrBody_escapeStr, hv, hrec, Option.map_some']
termination_by k v fs _ _ _ => 1 + sizeOf v + sizeOf fs
end

/-! ### Codec: top-level facts -/

theorem jsonFromStr_serJson (v : Json) : jsonFromStr (serJson v) = some v := by
  have h := rtVal v ((serJson v).length + 1) [] (by omega) rfl
  rw [List.append_nil] at h
  rw [jsonFromStr, h]
  rfl

theorem fromFirstBracket_skip (xs ys : Str) (hxs : '[' ∉ xs) (t : Str)
    (hys : ys = '[' :: t) : fromFirstBracket (xs ++ ys) = some ys := by
  induction xs with
  | nil => simp [fromFirstBracket, hys]
  | cons c cs ih =>
    have hc : ¬(c = '[') := by
      intro hc; exact hxs (by simp [hc])
    simp only [List.cons_append, fromFirstBracket, if_neg hc]
    exact ih (fun hm => hxs (by simp [hm]))

theorem serJson_twoArr (e0 e1 : Json) :
    serJson (.arr [e0, e1]) = '[' :: (serJson e0 ++ ',' :: serJson e1 ++ [']']) := by
  simp [serJson, serElems]

theorem decode_encode (event : Str) (data : Json) :
    decode_event (encode_event event data) = some (event, data) := by
  have hjson := jsonFromStr_serJson (.arr [.str event, data])
  have hffb : fromFirstBracket ('4' :: '2' :: serJson (.arr [.str event, data]))
      = some (serJson (.arr [.str event, data])) := by
    have h := fromFirstBracket_skip ['4', '2'] (serJson (.arr [.str event, data]))
      (by decide) (serJson (.str event) ++ ',' :: serJson data ++ [']'])
      (serJson_twoArr (.str event) data)
    simpa using h
  rw [encode_event, decode_event]
  rw [show startsWith42 ('4' :: '2' :: serJson (.arr [.str event, data])) = true from rfl]
  rw [if_pos rfl, hffb]
  simp only [hjson]

/-- The decoder's acceptance test on the parsed JSON value: an array of at
least two elements whose first element is a string. -/
def eventShape : Json → Bool
  | .arr (.str _ :: _ :: _) => true
  | _ => false

theorem decode_nonEvent (message : Str) (h : startsWith42 message = false) :
    decode_event message = none := by
  rw [decode_event, h]
  rfl

theorem decode_badShape (message js : Str) (v : Json)
    (hffb : fromFirstBracket message = some js)
    (hjson : jsonFromStr js = some v)
    (hshape : eventShape v = false) :
    decode_event message = none := by
  rw [decode_event]
  by_cases h42 : startsWith42 message = true
  · rw [if_pos h42, hffb]
    simp only [hjson]
    match v, hshape with
    | .null, _ => rfl
    | .bool b, _ => rfl
    | .num n, _ => rfl
    | .str s, _ => rfl
    | .obj fs, _ => rfl
    | .arr [], _ => rfl
    | .arr [e0], _ => rfl
    | .arr (.null :: e1 :: t), _ => rfl
    | .arr (.bool b :: e1 :: t), _ => rfl
    | .arr (.num n :: e1 :: t), _ => rfl
    | .arr (.arr es :: e1 :: t), _ => rfl
    | .arr (.obj fs :: e1 :: t), _ => rfl
    | .arr (.str s :: e1 :: t), hsh => simp [eventShape] at hsh
  · rw [if_neg h42]

/-! ### The relay registry (`adobe-proxy/src/main.rs`, `AppState`) -/

structure ClientInfo where
  id : Str
  application : Option Str

structure AppState where
  clients : List (Str × ClientInfo)
  applicationClients : List (Str × List Str)

/-- One delivery onto a session's outbound channel: recipient session id,
event name, JSON payload.  On the wire this is `encode_event event payload`
pushed into the recipient's `tx`; the codec round trip proved above
justifies reasoning at the (event, payload) level. -/
structure Delivery where
  dest : Str
  event : Str
  payload : Json

def emptyState : AppState := { clients := [], applicationClients := [] }

/-- `handle_socket`'s `state.clients.insert(client_id, ClientInfo { id,
application: None, tx })` on accept (main.rs line 261). -/
def connectClient (st : AppState) (clientId : Str) : AppState :=
  { st with
    clients := ainsert clientId { id := clientId, application := none } st.clients }

/-- `AppState::register_client` (main.rs line 138): record the application
on the client (if present), and push the id onto the application's vector
unless already there.  Note: nothing removes the id from a previously
registered application's vector. -/
def register_client (st : AppState) (clientId application : Str) : AppState :=
  { clients :=
      amodify clientId (fun c => { c with application := some application }) st.clients,
    applicationClients :=
      aupsert application
        (fun ids => if clientId ∈ ids then ids else ids ++ [clientId])
        [clientId] st.applicationClients }

/-- `AppState::unregister_client` (main.rs line 160): remove the client
record; if it recorded an application, retain all other ids in that
application's vector, dropping the whole entry when it becomes empty. -/
def unregister_client (st : AppState) (clientId : Str) : AppState :=
  match alookup clientId st.clients with
  | none => st
  | some info =>
    let clients' := aremove clientId st.clients
    let appClients' :=
      match info.application with
      | none => st.applicationClients
      | some app =>
        match alookup app st.applicationClients with
        | none => st.applicationClients
        | some ids =>
          let ids' := ids.filter (fun i => i ≠ clientId)
          if ids'.isEmpty then aremove app st.applicationClients
          else ainsert app ids' st.applicationClients
    { clients := clients', applicationClients := appClients' }

structure CommandPacketWithSender where
  senderId : Str
  application : Str
  command : Json

/-- `serde_json::Value::get(key)`: field of an object, else nothing. -/
def getField (v : Json) (k : Str) : Option Json :=
  match v with
  | .obj fs => alookup k fs
  | _ => none

/-- `AppState::send_to_application` (main.rs line 177): `true` iff the
application has a registry entry (empty or not); one delivery per listed id
still present in `clients`, carrying the `json!` payload of main.rs 187. -/
def send_to_application (st : AppState) (packet : CommandPacketWithSender) :
    Bool × List Delivery :=
  match alookup packet.application st.applicationClients with
  | some ids =>
    let eventData : Json := .obj
      [("senderId".toList, .str packet.senderId),
       ("application".toList, .str packet.application),
       ("command".toList, packet.command)]
    (true, ids.filterMap (fun cid =>
      match alookup cid st.clients with
      | some _ =>
        some { dest := cid, event := "command_packet".toList, payload := eventData }
      | none => none))
  | none => (false, [])

/-- `AppState::send_to_client` (main.rs line 208). -/
def send_to_client (st : AppState) (clientId : Str) (event : Str) (data : Json) :
    Bool × List Delivery :=
  match alookup clientId st.clients with
  | some _ => (true, [{ dest := clientId, event := event, payload := data }])
  | none => (false, [])

/-- `AppState::has_application_client` (main.rs line 234). -/
def has_application_client (st : AppState) (application : Str) : Bool :=
  match alookup application st.applicationClients with
  | some ids => !ids.isEmpty
  | none => false

structure StatusResponse where
  status : Str
  port : Nat
  clients : List (Str × Nat)
  uptime : Nat

/-- `AppState::get_status` (main.rs line 219): the `port` field is the
literal `3001`, independent of any configuration. -/
def get_status (st : AppState) (uptime : Nat) : StatusResponse :=
  { status := "running".toList,
    port := 3001,
    clients := st.applicationClients.map (fun kv => (kv.1, kv.2.length)),
    uptime := uptime }

/-- `status_handler` (main.rs line 471): serves `get_status` and overwrites
`port` with the literal `3001` again; the `--port` the relay was actually
started with (`configuredPort`) is never consulted. -/
def status_handler (configuredPort : Nat) (st : AppState) (uptime : Nat) : StatusResponse :=
  let status := get_status st uptime
  { status with port := 3001 }

/-! ### The event router (`adobe-proxy/src/main.rs`, `handle_event`) -/

structure RegisterMessage where
  application : Str

/-- `serde_json::from_value::<RegisterMessage>`: an object whose
`application` field is a string (unknown fields ignored, serde's default),
or — serde's struct-from-seq — a one-element array whose element is a
string, read positionally; serde_json rejects arrays of any other length
(it checks that the visitor consumed the whole array) and every other
`Value` kind. -/
def fromValueRegister (v : Json) : Option RegisterMessage :=
  match v with
  | .obj fs =>
    match alookup "application".toList fs with
    | some (.str app) => some { application := app }
    | _ => none
  | .arr [.str app] => some { application := app }
  | _ => none

structure CommandPacket where
  application : Str
  command : Json

/-- `serde_json::from_value::<CommandPacket>`: an object with a string
`application` field and a `command` field of any JSON value, or — serde's
struct-from-seq — a two-element array `[application, command]` with a
string head, read positionally; other array lengths and all remaining
`Value` kinds fail. -/
def fromValueCommandPacket (v : Json) : Option CommandPacket :=
  match v with
  | .obj fs =>
    match alookup "application".toList fs, alookup "command".toList fs with
    | some (.str app), some cmd => some { application := app, command := cmd }
    | _, _ => none
  | .arr [.str app, cmd] => some { application := app, command := cmd }
  | _ => none

structure CommandPacketResponse where
  packet : Json

/-- `serde_json::from_value::<CommandPacketResponse>`: an object with a
`packet` field of any JSON value, or — serde's struct-from-seq — a
one-element array `[packet]`, read positionally; other array lengths and
all remaining `Value` kinds fail. -/
def fromValueCommandPacketResponse (v : Json) : Option CommandPacketResponse :=
  match v with
  | .obj fs =>
    match alookup "packet".toList fs with
    | some p => some { packet := p }
    | _ => none
  | .arr [p] => some { packet := p }
  | _ => none

/-- The diagnostic appended when an auto-launched application never
registered within the timeout (main.rs line 412). -/
def timeoutNote (timeoutMs : Nat) : Str :=
  "Auto-launch attempted, no client registered within ".toList
    ++ serNat timeoutMs ++ "ms".toList

/-- The diagnostic when no candidate executable exists (main.rs line 417). -/
def noExeNote (application : Str) : Str :=
  "Auto-launch enabled but no executable found for application: ".toList ++ application

/-- The failure reply of `handle_event`'s `command_packet` arm
(main.rs lines 424–437): base message naming the application, the optional
auto-launch note appended after `". "`, sent only to the originator. -/
def commandFailure (stCur : AppState) (clientId application : Str)
    (note : Option Str) : AppState × List Delivery :=
  let message :=
    "No clients registered for application: ".toList ++ application ++
      (match note with
       | some n => ". ".toList ++ n
       | none => [])
  let resp : Json := .obj
    [("senderId".toList, .str clientId),
     ("status".toList, .str "FAILURE".toList),
     ("message".toList, .str message)]
  (stCur, (send_to_client stCur clientId "packet_response".toList resp).2)

/-- The router `handle_event` (main.rs lines 358–456), as a function from
the pre-state to (post-state, deliveries).  The auto-launch effects, which
touch the filesystem, processes and real time, are abstracted by
parameters: `launchOk` is `try_launch_application`'s outcome and
`stAfterWait` the shared registry state when `wait_for_application`
returns (other connections may have registered meanwhile);  `timeoutMs`
is the configured timeout quoted in the diagnostic. -/
def handle_event (autoLaunch launchOk : Bool) (stAfterWait : AppState)
    (timeoutMs : Nat) (st : AppState) (clientId : Str) (event : Str) (data : Json) :
    AppState × List Delivery :=
  if event = "register".toList then
    match fromValueRegister data with
    | some rm =>
      let st' := register_client st clientId rm.application
      let resp : Json := .obj
        [("type".toList, .str "registration".toList),
         ("status".toList, .str "success".toList),
         ("message".toList, .str ("Registered for ".toList ++ rm.application))]
      (st', [{ dest := clientId, event := "registration_response".toList, payload := resp }])
    | none => (st, [])
  else if event = "command_packet".toList then
    match fromValueCommandPacket data with
    | some cp =>
      let pws : CommandPacketWithSender :=
        { senderId := clientId, application := cp.application, command := cp.command }
      match send_to_application st pws with
      | (true, msgs) => (st, msgs)
      | (false, _) =>
        if autoLaunch then
          if launchOk then
            if has_application_client stAfterWait pws.application then
              match send_to_application stAfterWait pws with
              | (true, msgs2) => (stAfterWait, msgs2)
              | (false, _) =>
                commandFailure stAfterWait clientId pws.application
                  (some (timeoutNote timeoutMs))
            else
              commandFailure stAfterWait clientId pws.application
                (some (timeoutNote timeoutMs))
          else
            commandFailure st clientId pws.application (some (noExeNote pws.application))
        else
          commandFailure st clientId pws.application none
    | none => (st, [])
  else if event = "command_packet_response".toList then
    match fromValueCommandPacketResponse data with
    | some resp =>
      match getField resp.packet "senderId".toList with
      | some (.str senderId) =>
        (st, (send_to_client st senderId "packet_response".toList resp.packet).2)
      | _ => (st, [])
    | none => (st, [])
  else (st, [])

/-! ### Registry lemmas -/

theorem alookup_aremove_self {α : Type} (k : Str) (l : List (Str × α)) :
    alookup k (aremove k l) = none := by
  induction l with
  | nil => rfl
  | cons kv rest ih =>
    by_cases hk : kv.1 = k
    · simpa [aremove, hk] using ih
    · simpa [aremove, hk, alookup, Ne.symm hk] using ih

theorem alookup_aremove_ne {α : Type} {k k' : Str} (l : List (Str × α)) (h : k' ≠ k) :
    alookup k' (aremove k l) = alookup k' l := by
  induction l with
  | nil => rfl
  | cons kv rest ih =>
    by_cases hk : kv.1 = k
    · rw [show alookup k' (kv :: rest) = alookup k' rest from by
        simp [alookup, show k' ≠ kv.1 from hk ▸ h]]
      simpa [aremove, hk] using ih
    · by_cases hk' : k' = kv.1
      · simp [aremove, hk, alookup, hk']
      · simpa [aremove, hk, alookup, hk'] using ih

theorem alookup_ainsert_self {α : Type} (k : Str) (v : α) (l : List (Str × α)) :
    alookup k (ainsert k v l) = some v := by
  simp [ainsert, alookup]

theorem alookup_ainsert_ne {α : Type} {k k' : Str} (v : α) (l : List (Str × α))
    (h : k' ≠ k) : alookup k' (ainsert k v l) = alookup k' l := by
  rw [ainsert, show alookup k' ((k, v) :: aremove k l) = alookup k' (aremove k l) from by
    simp [alookup, h]]
  exact alookup_aremove_ne l h

theorem alookup_none_not_memFst {α : Type} {k : Str} {l : List (Str × α)}
    (h : alookup k l = none) : k ∉ l.map Prod.fst := by
  induction l with
  | nil => simp
  | cons kv rest ih =>
    obtain ⟨k1, v1⟩ := kv
    intro hmem
    rw [List.map_cons, List.mem_cons] at hmem
    by_cases hk : k = k1
    · rw [alookup, if_pos hk] at h
      exact Option.noConfusion h
    · rw [alookup, if_neg hk] at h
      rcases hmem with hmem | hmem
      · exact hk hmem
      · exact ih h hmem

/-- The model observer for `registry.sessionsFor(app)` (spec §4.2): the set
of session ids currently registered for an application. -/
def sessionsFor (st : AppState) (application : Str) : List Str :=
  (alookup application st.applicationClients).getD []

/-- Invariant of §4.2: no empty application entry persists. -/
def NoEmptyEntries (st : AppState) : Prop :=
  ∀ a ids, alookup a st.applicationClients = some ids → ids ≠ []

theorem noEmpty_empty : NoEmptyEntries emptyState := by
  intro a ids h
  exact absurd h (by simp [emptyState, alookup])

theorem noEmpty_connect (st : AppState) (cid : Str) (h : NoEmptyEntries st) :
    NoEmptyEntries (connectClient st cid) := h

theorem noEmpty_register (st : AppState) (cid app : Str) (h : NoEmptyEntries st) :
    NoEmptyEntries (register_client st cid app) := by
  intro a ids hids
  by_cases ha : a = app
  · subst ha
    rw [register_client] at hids
    simp only at hids
    rcases hl : alookup a st.applicationClients with _ | ids0
    · rw [aupsert, hl, alookup_ainsert_self] at hids
      injection hids with hids
      subst hids
      simp
    · rw [aupsert, hl, alookup_ainsert_self] at hids
      injection hids with hids
      subst hids
      by_cases hm : cid ∈ ids0
      · simpa [hm] using h a ids0 hl
      · simp [hm]
  · rw [register_client] at hids
    simp only at hids
    rcases hl : alookup app st.applicationClients with _ | ids0 <;>
      rw [aupsert, hl, alookup_ainsert_ne _ _ ha] at hids <;>
      exact h a ids hids

theorem noEmpty_unregister (st : AppState) (cid : Str) (h : NoEmptyEntries st) :
    NoEmptyEntries (unregister_client st cid) := by
  intro a ids hids
  rw [unregister_client] at hids
  rcases hc : alookup cid st.clients with _ | info
  · rw [hc] at hids
    exact h a ids hids
  · rw [hc] at hids
    simp only at hids
    rcases happ : info.application with _ | app
    · simp only [happ] at hids
      exact h a ids hids
    · simp only [happ] at hids
      rcases hl : alookup app st.applicationClients with _ | ids0
      · simp only [hl] at hids
        exact h a ids hids
      · simp only [hl] at hids
        by_cases he : (ids0.filter (fun i => i ≠ cid)).isEmpty
        · rw [if_pos he] at hids
          by_cases ha : a = app
          · subst ha
            rw [alookup_aremove_self] at hids
            exact absurd hids (by simp)
          · rw [alookup_aremove_ne _ ha] at hids
            exact h a ids hids
        · rw [if_neg he] at hids
          by_cases ha : a = app
          · subst ha
            rw [alookup_ainsert_self] at hids
            injection hids with hids
            subst hids
            intro hcon
            rw [hcon] at he
            exact he rfl
          · rw [alookup_ainsert_ne _ _ ha] at hids
            exact h a ids hids

/-- `send_to_application` on an application whose registered ids are all
live clients: succeeds and delivers the main.rs-187 payload to each, in
registration order. -/
theorem send_to_application_fanout (st : AppState) (packet : CommandPacketWithSender)
    (ids : List Str)
    (hids : alookup packet.application st.applicationClients = some ids)
    (hlive : ∀ i ∈ ids, (alookup i st.clients).isSome = true) :
    send_to_application st packet
      = (true, ids.map (fun i =>
          { dest := i, event := "command_packet".toList,
            payload := Json.obj
              [("senderId".toList, .str packet.senderId),
               ("application".toList, .str packet.application),
               ("command".toList, packet.command)] })) := by
  simp only [send_to_application, hids]
  clear hids
  revert hlive
  induction ids with
  | nil => intro _; rfl
  | cons i rest ih =>
    intro hlive
    obtain ⟨ci, hci⟩ := Option.isSome_iff_exists.mp (hlive i (by simp))
    have ihh := ih (fun x hx => hlive x (by simp [hx]))
    have htail := congrArg Prod.snd ihh
    simp only at htail
    simp only [List.filterMap_cons, List.map_cons, hci, htail]

/-! ### Claims -/

/-- C6: for every event name (string) and JSON payload, decoding the frame
produced by encoding the pair yields back exactly the same pair:
`decode_event (encode_event event payload) = some (event, payload)`. -/
theorem C6_decode_encode_round_trip (event : Str) (payload : Json) :
    decode_event (encode_event event payload) = some (event, payload) :=
  decode_encode event payload

/-- C7, counterexample: the claim says decoding returns nothing when the
JSON at the first `[` is not a *two-element* array with a string head, but
`decode_event` accepts any array of length `>= 2` (`arr.len() >= 2` in
socket_io.rs line 24): the three-element frame `42["ev",1,2]` decodes to
`("ev", 1)` instead of nothing. -/
theorem C7_three_element_array_decodes :
    decode_event "42[\"ev\",1,2]".toList = some ("ev".toList, Json.num 1) := rfl

/-- C7 (amended): decoding returns nothing (without error) for any input
not starting with the event marker `"42"`, and returns nothing when the
JSON found at the first `[` is not an array of *at least two* elements
whose first element is a string. -/
theorem C7_reject_non_events (message js : Str) (v : Json) :
    (startsWith42 message = false → decode_event message = none)
    ∧ (fromFirstBracket message = some js → jsonFromStr js = some v →
        eventShape v = false → decode_event message = none) :=
  ⟨decode_nonEvent message, fun h1 h2 h3 => decode_badShape message js v h1 h2 h3⟩

theorem C7_reject_non_events_witness :
    decode_event "41".toList = none ∧ decode_event "42[1,2]".toList = none :=
  ⟨(C7_reject_non_events "41".toList [] Json.null).1 rfl,
   (C7_reject_non_events "42[1,2]".toList "[1,2]".toList
      (Json.arr [Json.num 1, Json.num 2])).2 rfl rfl rfl⟩

/-- C9, counterexample: the claim quantifies over *every* namespace
segment, but a segment containing `[` defeats the scan for the first `[`:
with segment `[0`, the namespaced frame decodes to nothing while the
un-namespaced frame decodes to `("e", null)`. -/
theorem C9_bracket_namespace_breaks_decode :
    decode_event "42/[0,[\"e\",null]".toList = none
    ∧ decode_event "42[\"e\",null]".toList = some ("e".toList, Json.null) :=
  ⟨rfl, rfl⟩

/-- C9 (amended): for every namespace segment containing no `[`, decoding
`42/ns,[event,payload]` gives the same result as decoding the
un-namespaced `42[event,payload]`. -/
theorem C9_namespace_tolerated (ns event : Str) (payload : Json) (hns : '[' ∉ ns) :
    decode_event
        ('4' :: '2' :: '/' :: (ns ++ ',' :: serJson (.arr [.str event, payload])))
      = decode_event ('4' :: '2' :: serJson (.arr [.str event, payload])) := by
  have hffbL : fromFirstBracket
      ('4' :: '2' :: '/' :: (ns ++ ',' :: serJson (.arr [.str event, payload])))
      = some (serJson (.arr [.str event, payload])) := by
    have hmem : '[' ∉ (['4', '2', '/'] ++ ns ++ [',']) := by
      intro hm
      rcases List.mem_append.mp hm with hm | hm
      · rcases List.mem_append.mp hm with hm | hm
        · exact absurd hm (by decide)
        · exact hns hm
      · exact absurd hm (by decide)
    have h := fromFirstBracket_skip (['4', '2', '/'] ++ ns ++ [','])
      (serJson (.arr [.str event, payload])) hmem
      (serJson (.str event) ++ ',' :: serJson payload ++ [']'])
      (serJson_twoArr (.str event) payload)
    simpa using h
  have hffbR : fromFirstBracket ('4' :: '2' :: serJson (.arr [.str event, payload]))
      = some (serJson (.arr [.str event, payload])) := by
    have h := fromFirstBracket_skip ['4', '2'] (serJson (.arr [.str event, payload]))
      (by decide) (serJson (.str event) ++ ',' :: serJson payload ++ [']'])
      (serJson_twoArr (.str event) payload)
    simpa using h
  have h42L : startsWith42
      ('4' :: '2' :: '/' :: (ns ++ ',' :: serJson (.arr [.str event, payload]))) = true := rfl
  have h42R : startsWith42 ('4' :: '2' :: serJson (.arr [.str event, payload])) = true := rfl
  simp only [decode_event, h42L, h42R, if_true, hffbL, hffbR]

theorem C9_namespace_tolerated_witness :
    ('[' ∉ "uxp".toList)
    ∧ decode_event
        ('4' :: '2' :: '/' :: ("uxp".toList ++ ',' :: serJson (.arr [.str "e".toList, Json.null])))
      = decode_event ('4' :: '2' :: serJson (.arr [.str "e".toList, Json.null])) :=
  ⟨by decide, C9_namespace_tolerated "uxp".toList "e".toList Json.null (by decide)⟩

/-- C10: the status snapshot served by the HTTP endpoint always reports
`port = 3001` — `get_status` hardcodes it (main.rs 228) and
`status_handler` re-asserts it (main.rs 474) — whatever `--port` the relay
was configured with and whatever the registry holds. -/
theorem C10_status_port_always_3001 (configuredPort : Nat) (st : AppState) (uptime : Nat) :
    (status_handler configuredPort st uptime).port = 3001 := rfl

/-- C1: a `command_packet_response` whose packet carries a string
`senderId` equal to session A's id is forwarded as a `packet_response`
carrying the full packet to A's channel and to nobody else (whatever else
— including several sessions registered for one application — the registry
holds); if the packet has no string `senderId`, nothing is delivered and
the state is unchanged. -/
theorem C1_response_only_to_sender (al lo : Bool) (sw st : AppState) (tm : Nat)
    (cid A : Str) (data packet : Json) (info : ClientInfo)
    (hdata : fromValueCommandPacketResponse data = some { packet := packet }) :
    (getField packet "senderId".toList = some (.str A) →
      alookup A st.clients = some info →
      handle_event al lo sw tm st cid "command_packet_response".toList data
        = (st, [{ dest := A, event := "packet_response".toList, payload := packet }]))
    ∧ ((∀ s, getField packet "senderId".toList ≠ some (.str s)) →
      handle_event al lo sw tm st cid "command_packet_response".toList data
        = (st, [])) := by
  have hstep : handle_event al lo sw tm st cid "command_packet_response".toList data
      = match fromValueCommandPacketResponse data with
        | some resp =>
          match getField resp.packet "senderId".toList with
          | some (.str senderId) =>
            (st, (send_to_client st senderId "packet_response".toList resp.packet).2)
          | _ => (st, [])
        | none => (st, []) := rfl
  constructor
  · intro hsid hA
    rw [hstep]
    simp only [hdata, hsid, send_to_client, hA]
  · intro hnone
    rcases hgf : getField packet "senderId".toList with _ | j
    · rw [hstep]
      simp only [hdata, hgf]
    · match j, hgf with
      | .str s, hgf => exact absurd hgf (hnone s)
      | .null, hgf =>
        rw [hstep]
        simp only [hdata, hgf]
      | .bool b, hgf =>
        rw [hstep]
        simp only [hdata, hgf]
      | .num n, hgf =>
        rw [hstep]
        simp only [hdata, hgf]
      | .arr es, hgf =>
        rw [hstep]
        simp only [hdata, hgf]
      | .obj fs, hgf =>
        rw [hstep]
        simp only [hdata, hgf]

/-- A registry with three connected sessions `a`, `b`, `c`, where `a` and
`b` are both registered for application `p`. -/
def twoAgentState : AppState :=
  register_client
    (register_client
      (connectClient (connectClient (connectClient emptyState ['a']) ['b']) ['c'])
      ['a'] ['p'])
    ['b'] ['p']

theorem C1_response_only_to_sender_witness :
    handle_event false false emptyState 0 twoAgentState ['c']
        "command_packet_response".toList
        (Json.obj [("packet".toList,
          Json.obj [("senderId".toList, Json.str ['a']),
                    ("status".toList, Json.str "SUCCESS".toList)])])
      = (twoAgentState,
          [{ dest := ['a'], event := "packet_response".toList,
             payload := Json.obj [("senderId".toList, Json.str ['a']),
                                  ("status".toList, Json.str "SUCCESS".toList)] }]) :=
  (C1_response_only_to_sender false false emptyState twoAgentState 0 ['c'] ['a']
      (Json.obj [("packet".toList,
        Json.obj [("senderId".toList, Json.str ['a']),
                  ("status".toList, Json.str "SUCCESS".toList)])])
      (Json.obj [("senderId".toList, Json.str ['a']),
                 ("status".toList, Json.str "SUCCESS".toList)])
      { id := ['a'], application := some ['p'] } rfl).1 rfl rfl

/-- C2: a `command_packet` for an application with a non-empty registered
set is fanned out to exactly the sessions in that set (each of which is a
live client), as a `command_packet` event whose payload is
`{senderId = issuer, application, command}`; the registry is unchanged. -/
theorem C2_command_fanout_tagged (al lo : Bool) (sw st : AppState) (tm : Nat)
    (cid app : Str) (cmd data : Json) (ids : List Str)
    (hdata : fromValueCommandPacket data = some { application := app, command := cmd })
    (hids : alookup app st.applicationClients = some ids)
    (hne : ids ≠ [])
    (hlive : ∀ i ∈ ids, (alookup i st.clients).isSome = true) :
    handle_event al lo sw tm st cid "command_packet".toList data
      = (st, ids.map (fun i =>
          { dest := i, event := "command_packet".toList,
            payload := Json.obj
              [("senderId".toList, .str cid),
               ("application".toList, .str app),
               ("command".toList, cmd)] })) := by
  have hne1 : ¬("command_packet".toList = "register".toList) := by decide
  simp only [handle_event, if_neg hne1, if_pos rfl, hdata]
  rw [send_to_application_fanout st
    { senderId := cid, application := app, command := cmd } ids hids hlive]
  rfl

theorem C2_command_fanout_tagged_witness :
    handle_event false false emptyState 0 twoAgentState ['c'] "command_packet".toList
        (Json.obj [("application".toList, Json.str ['p']),
                   ("command".toList, Json.obj [("action".toList, Json.str "go".toList)])])
      = (twoAgentState,
          [{ dest := ['a'], event := "command_packet".toList,
             payload := Json.obj
               [("senderId".toList, Json.str ['c']),
                ("application".toList, Json.str ['p']),
                ("command".toList, Json.obj [("action".toList, Json.str "go".toList)])] },
           { dest := ['b'], event := "command_packet".toList,
             payload := Json.obj
               [("senderId".toList, Json.str ['c']),
                ("application".toList, Json.str ['p']),
                ("command".toList, Json.obj [("action".toList, Json.str "go".toList)])] }]) :=
  C2_command_fanout_tagged false false emptyState twoAgentState 0 ['c'] ['p'] _ _
    [['a'], ['b']] rfl rfl (by decide) (by decide)

/-- C3: a `command_packet` from a live session `cid` for an application
with zero registered sessions, with auto-launch disabled, produces exactly
one delivery: a `packet_response` back to `cid` with status `"FAILURE"`
whose message names the unregistered application; no `command_packet` goes
anywhere and the registry is unchanged. -/
theorem C3_failure_names_application (lo : Bool) (sw st : AppState) (tm : Nat)
    (cid app : Str) (cmd data : Json)
    (hdata : fromValueCommandPacket data = some { application := app, command := cmd })
    (hempty : sessionsFor st app = [])
    (hinv : NoEmptyEntries st)
    (hcid : (alookup cid st.clients).isSome = true) :
    handle_event false lo sw tm st cid "command_packet".toList data
      = (st, [{ dest := cid, event := "packet_response".toList,
                payload := Json.obj
                  [("senderId".toList, .str cid),
                   ("status".toList, .str "FAILURE".toList),
                   ("message".toList,
                    .str ("No clients registered for application: ".toList ++ app))] }]) := by
  have hnone : alookup app st.applicationClients = none := by
    rcases hl : alookup app st.applicationClients with _ | ids
    · rfl
    · exfalso
      rw [sessionsFor, hl] at hempty
      exact hinv app ids hl (by simpa using hempty)
  obtain ⟨ci, hci⟩ := Option.isSome_iff_exists.mp hcid
  have hne1 : ¬("command_packet".toList = "register".toList) := by decide
  simp only [handle_event, if_neg hne1, if_pos rfl, hdata, send_to_application, hnone,
    Bool.false_eq_true, if_false, commandFailure, send_to_client, hci]
  simp

theorem C3_failure_names_application_witness :
    handle_event false false emptyState 0 (connectClient emptyState ['c']) ['c']
        "command_packet".toList
        (Json.obj [("application".toList, Json.str ['q']),
                   ("command".toList, Json.null)])
      = (connectClient emptyState ['c'],
          [{ dest := ['c'], event := "packet_response".toList,
             payload := Json.obj
               [("senderId".toList, Json.str ['c']),
                ("status".toList, Json.str "FAILURE".toList),
                ("message".toList,
                 Json.str ("No clients registered for application: ".toList ++ ['q']))] }]) :=
  C3_failure_names_application false emptyState (connectClient emptyState ['c']) 0
    ['c'] ['q'] Json.null _ rfl rfl
    (fun a ids h => Option.noConfusion h) rfl

/-- A session that registers for application `a` and then re-registers for
`b` (main.rs never removes it from `a`'s vector). -/
def c4State : AppState :=
  register_client (register_client (connectClient emptyState ['s']) ['s'] ['a']) ['s'] ['b']

/-- C4, failing input: the claim's invariant — each session id is in at
most one application's set — is violated by `register_client`
(main.rs 138), which adds to the new application's vector without removing
the id from the old one (the gap §9 of the spec flags): after `s`
registers for `a` then `b`, it is a member of both sets. -/
theorem C4_stale_membership_after_reregistration :
    ['s'] ∈ sessionsFor c4State ['a'] ∧ ['s'] ∈ sessionsFor c4State ['b']
      ∧ (['a'] : Str) ≠ ['b'] := by decide

theorem status_not_listed (st' : AppState) (app : Str) (u : Nat)
    (h : alookup app st'.applicationClients = none) :
    app ∉ (get_status st' u).clients.map Prod.fst := by
  intro hcon
  rw [get_status] at hcon
  simp only [List.map_map, List.mem_map] at hcon
  obtain ⟨kv, hkv, hfst⟩ := hcon
  exact alookup_none_not_memFst h (List.mem_map.mpr ⟨kv, hkv, by simpa using hfst⟩)

/-- C5: removing a present session S deletes its record; if S had a
registered application, S is gone from that application's session set; if
the set thereby becomes empty, the application's entry is deleted, so the
status snapshot no longer lists the application; and the no-empty-entry
invariant is preserved. -/
theorem C5_remove_cleans_up (st : AppState) (S : Str) (info : ClientInfo)
    (hS : alookup S st.clients = some info) :
    alookup S (unregister_client st S).clients = none
    ∧ (∀ app, info.application = some app →
        S ∉ sessionsFor (unregister_client st S) app
        ∧ ((sessionsFor st app).filter (fun i => i ≠ S) = [] →
            alookup app (unregister_client st S).applicationClients = none
            ∧ ∀ u, app ∉ ((get_status (unregister_client st S) u).clients.map Prod.fst)))
    ∧ (NoEmptyEntries st → NoEmptyEntries (unregister_client st S)) := by
  refine ⟨?_, ?_, noEmpty_unregister st S⟩
  · simp only [unregister_client, hS]
    exact alookup_aremove_self S st.clients
  · intro app happ
    rcases hl : alookup app st.applicationClients with _ | ids
    · have hres : (unregister_client st S).applicationClients = st.applicationClients := by
        simp only [unregister_client, hS, happ, hl]
      refine ⟨?_, fun hfe => ⟨?_, fun u => ?_⟩⟩
      · rw [sessionsFor, hres, hl]
        simp
      · rw [hres]
        exact hl
      · exact status_not_listed _ app u (by rw [hres]; exact hl)
    · by_cases he : (ids.filter (fun i => i ≠ S)).isEmpty = true
      · have hres : (unregister_client st S).applicationClients
            = aremove app st.applicationClients := by
          simp only [unregister_client, hS, happ, hl, if_pos he]
        refine ⟨?_, fun hfe => ⟨?_, fun u => ?_⟩⟩
        · rw [sessionsFor, hres, alookup_aremove_self]
          simp
        · rw [hres]
          exact alookup_aremove_self app st.applicationClients
        · exact status_not_listed _ app u
            (by rw [hres]; exact alookup_aremove_self app st.applicationClients)
      · have hres : (unregister_client st S).applicationClients
            = ainsert app (ids.filter (fun i => i ≠ S)) st.applicationClients := by
          simp only [unregister_client, hS, happ, hl, if_neg he]
        refine ⟨?_, fun hfe => ?_⟩
        · rw [sessionsFor, hres, alookup_ainsert_self]
          intro hmem
          simp only [Option.getD_some, List.mem_filter] at hmem
          simp at hmem
        · exfalso
          apply he
          rw [sessionsFor] at hfe
          simp only [hl, Option.getD_some] at hfe
          rw [hfe]
          rfl

theorem C5_remove_cleans_up_witness :
    alookup ['s'] (unregister_client (register_client (connectClient emptyState ['s']) ['s'] ['a']) ['s']).clients = none
    ∧ alookup ['a'] (unregister_client (register_client (connectClient emptyState ['s']) ['s'] ['a']) ['s']).applicationClients = none :=
  have h := C5_remove_cleans_up (register_client (connectClient emptyState ['s']) ['s'] ['a'])
    ['s'] { id := ['s'], application := some ['a'] } rfl
  ⟨h.1, ((h.2.1 ['a'] rfl).2 (by decide)).1⟩

/-- C8: an event whose payload fails to deserialize into the expected shape
for its name (`register`, `command_packet`, `command_packet_response`), or
whose name is unknown, is dropped: the handler returns normally with the
registry unchanged and no delivery (no panic path exists — the model is a
total function). -/
theorem C8_malformed_or_unknown_dropped (al lo : Bool) (sw st : AppState) (tm : Nat)
    (cid event : Str) (data : Json)
    (h : (event = "register".toList ∧ fromValueRegister data = none)
      ∨ (event = "command_packet".toList ∧ fromValueCommandPacket data = none)
      ∨ (event = "command_packet_response".toList
          ∧ fromValueCommandPacketResponse data = none)
      ∨ (event ≠ "register".toList ∧ event ≠ "command_packet".toList
          ∧ event ≠ "command_packet_response".toList)) :
    handle_event al lo sw tm st cid event data = (st, []) := by
  rcases h with ⟨rfl, hd⟩ | ⟨rfl, hd⟩ | ⟨rfl, hd⟩ | ⟨h1, h2, h3⟩
  · simp only [handle_event, if_pos rfl, if_true, hd]
  · have hne1 : ¬("command_packet".toList = "register".toList) := by decide
    simp only [handle_event, if_neg hne1, if_pos rfl, if_true, hd]
  · have hne1 : ¬("command_packet_response".toList = "register".toList) := by decide
    have hne2 : ¬("command_packet_response".toList = "command_packet".toList) := by decide
    simp only [handle_event, if_neg hne1, if_neg hne2, if_pos rfl, if_true, hd]
  · simp only [handle_event, if_neg h1, if_neg h2, if_neg h3]

theorem C8_malformed_or_unknown_dropped_witness :
    handle_event false false emptyState 0 twoAgentState ['c'] "register".toList Json.null
      = (twoAgentState, [])
    ∧ handle_event false false emptyState 0 twoAgentState ['c'] "bogus".toList Json.null
      = (twoAgentState, []) :=
  ⟨C8_malformed_or_unknown_dropped false false emptyState twoAgentState 0 ['c']
      "register".toList Json.null (Or.inl ⟨rfl, rfl⟩),
   C8_malformed_or_unknown_dropped false false emptyState twoAgentState 0 ['c']
      "bogus".toList Json.null
      (Or.inr (Or.inr (Or.inr ⟨by decide, by decide, by decide⟩)))⟩
